import Mathlib

/-!
# Verification development for the apple-doc-mcp core components

Shallow embedding, translated from the TypeScript sources, of:

* the search tokenizer (`src/server/utils/tokenizer.ts`),
* the local symbol index build and search (`src/server/services/local-symbol-index.ts`),
* the HTTP retry client (`src/apple-client/http-client.ts`),
* the persistent file cache (`src/apple-client/cache/file-cache.ts`),
* the documentation client read-through paths (`src/apple-client.ts`),
* the composed server state (`src/server/state.ts`) and the
  `choose_technology` handler's state mutation.

JavaScript strings are modelled as Lean `String`/`List Char`; string case
mapping (`toLowerCase`) is modelled on the ASCII range, which is the range
exercised by every identifier, path and query in this code base.  JavaScript
`Map`s are modelled as insertion-ordered association lists.  Promise-based
fallible operations are modelled with `Except`.
-/

namespace AppleDocMcp

/-! ## Basic string helpers (JS semantics) -/

/-- ASCII lowercasing of a string (`String.prototype.toLowerCase` on the
ASCII range; `Char.toLower` only affects `'A'..'Z'`). -/
def lowerStr (s : String) : String := String.mk (s.data.map Char.toLower)

/-- Substring containment on character lists (`String.prototype.includes`):
`needle` occurs contiguously inside `hay`; the empty needle always occurs. -/
def listContainsSub (hay needle : List Char) : Bool :=
  match hay with
  | [] => needle.isEmpty
  | c :: t => needle.isPrefixOf (c :: t) || listContainsSub t needle

/-- `hay.includes(needle)` for Lean strings. -/
def strContains (hay needle : String) : Bool := listContainsSub hay.data needle.data

/-- JS string truthiness for an optional string: defined and non-empty. -/
def strTruthy : Option String → Bool
  | some s => s ≠ ""
  | none => false

/-- JS `x || d` for an optional string `x` and default `d`. -/
def strOr (x : Option String) (d : String) : String :=
  match x with
  | some v => if v = "" then d else v
  | none => d

/-- JS `a || b` for two plain strings (`b` when `a` is empty). -/
def strOr2 (a b : String) : String := if a = "" then b else a

/-! ## Tokenizer — `src/server/utils/tokenizer.ts` -/

/-- Delimiter class of `text.split(/[\s\/._-]+/)`; `\s` modelled as ASCII
whitespace. -/
def isDelim (c : Char) : Bool :=
  c.isWhitespace || c == '/' || c == '.' || c == '_' || c == '-'

/-- Accumulating splitter: cut the input at every delimiter character. -/
def splitDelimsAux : List Char → List Char → List (List Char)
  | [], cur => [cur.reverse]
  | c :: rest, cur =>
    if isDelim c then cur.reverse :: splitDelimsAux rest []
    else splitDelimsAux rest (c :: cur)

/-- `text.split(/[\s\/._-]+/).filter(Boolean)`. -/
def basicTokensOf (s : List Char) : List (List Char) :=
  (splitDelimsAux s []).filter (· ≠ [])

/-- Accumulating splitter for `token.split(/(?=[A-Z])/)`: cut before every
ASCII uppercase letter. -/
def camelSplitAux : List Char → List Char → List (List Char)
  | [], cur => [cur.reverse]
  | c :: rest, cur =>
    if c.isUpper then cur.reverse :: camelSplitAux rest [c]
    else camelSplitAux rest (c :: cur)

/-- `token.split(/(?=[A-Z])/).filter(Boolean)`. -/
def camelSplit (t : List Char) : List (List Char) :=
  (camelSplitAux t []).filter (· ≠ [])

/-- `Set.add` on an insertion-ordered list model of a JS `Set`. -/
def insertUniq (xs : List String) (x : String) : List String :=
  if xs.contains x then xs else xs ++ [x]

/-- `tokenize` from `tokenizer.ts`: split on delimiters, then add for every
basic token its lowercase form, its original form, and (when camelCase
splitting yields more than one part) each part in both cases plus the
concatenated lowercase form; order and de-duplication follow JS `Set`. -/
def tokenize (text : String) : List String :=
  if text = "" then []
  else
    (basicTokensOf text.data).foldl
      (fun acc tokenChars =>
        let token := String.mk tokenChars
        let acc := insertUniq acc (lowerStr token)
        let acc := insertUniq acc token
        let camelParts := (camelSplit tokenChars).map String.mk
        if camelParts.length > 1 then
          let acc := camelParts.foldl
            (fun a part => insertUniq (insertUniq a (lowerStr part)) part) acc
          insertUniq acc (lowerStr (String.join camelParts))
        else acc)
      []

/-- `createSearchTokens` from `tokenizer.ts`: union (as a JS `Set`) of the
tokens of title, abstract, path and every platform name. -/
def createSearchTokens (title abstract path : String) (platforms : List String) :
    List String :=
  (tokenize title ++ tokenize abstract ++ tokenize path
    ++ (platforms.map tokenize).flatten).foldl insertUniq []

/-! ## JSON values and the Zod schema validators —
`src/apple-client/types/schemas.ts` -/

/-- JSON values as stored in the persistent cache.  Objects are
insertion-ordered field lists (duplicate keys do not arise in parsed JSON);
numbers are not validated anywhere in the schemas the cache uses, so an
integer model suffices. -/
inductive Json where
  | null
  | bool (b : Bool)
  | num (n : Int)
  | str (s : String)
  | arr (elems : List Json)
  | obj (fields : List (String × Json))

/-- Object field lookup. -/
def Json.getField : Json → String → Option Json
  | .obj fields, key => fields.lookup key
  | _, _ => none

/-- `z.string()` shape test. -/
def Json.isStr : Json → Bool
  | .str _ => true
  | _ => false

/-- `z.boolean()` shape test. -/
def Json.isBool : Json → Bool
  | .bool _ => true
  | _ => false

/-- Is this value a JSON object? -/
def Json.isObj : Json → Bool
  | .obj _ => true
  | _ => false

/-- `z...optional()`: the field may be absent, but when present must match. -/
def optFieldIs (j : Json) (key : String) (p : Json → Bool) : Bool :=
  match j.getField key with
  | none => true
  | some v => p v

/-- A required schema field: present and matching. -/
def reqFieldIs (j : Json) (key : String) (p : Json → Bool) : Bool :=
  match j.getField key with
  | none => false
  | some v => p v

/-- `z.array(p)` shape test. -/
def isArrOf (p : Json → Bool) : Json → Bool
  | .arr xs => xs.all p
  | _ => false

/-- `z.record(z.string(), p)` shape test. -/
def isRecordOf (p : Json → Bool) : Json → Bool
  | .obj fields => fields.all fun kv => p kv.2
  | _ => false

/-- `AbstractItemSchema`: `text` optional string, `type` string. -/
def abstractItemValid (j : Json) : Bool :=
  j.isObj && optFieldIs j "text" Json.isStr && reqFieldIs j "type" Json.isStr

/-- `PlatformInfoSchema`. -/
def platformInfoValid (j : Json) : Bool :=
  j.isObj && reqFieldIs j "name" Json.isStr
    && optFieldIs j "introducedAt" Json.isStr
    && optFieldIs j "beta" Json.isBool
    && optFieldIs j "deprecated" Json.isBool
    && optFieldIs j "unavailable" Json.isBool

/-- `ReferenceDataSchema`: every field optional, typed when present. -/
def referenceDataValid (j : Json) : Bool :=
  j.isObj && optFieldIs j "type" Json.isStr
    && optFieldIs j "identifier" Json.isStr
    && optFieldIs j "title" Json.isStr
    && optFieldIs j "kind" Json.isStr
    && optFieldIs j "abstract" (isArrOf abstractItemValid)
    && optFieldIs j "platforms" (isArrOf platformInfoValid)
    && optFieldIs j "url" Json.isStr

/-- `TopicSectionSchema`. -/
def topicSectionValid (j : Json) : Bool :=
  j.isObj && optFieldIs j "anchor" Json.isStr
    && reqFieldIs j "identifiers" (isArrOf Json.isStr)
    && reqFieldIs j "title" Json.isStr

/-- `FragmentSchema`. -/
def fragmentValid (j : Json) : Bool :=
  j.isObj && reqFieldIs j "kind" Json.isStr && reqFieldIs j "text" Json.isStr
    && optFieldIs j "preciseIdentifier" Json.isStr

/-- `PrimaryContentSectionSchema`: any object with a string `kind`. -/
def primaryContentSectionValid (j : Json) : Bool :=
  j.isObj && reqFieldIs j "kind" Json.isStr

/-- `FrameworkDataSchema`'s `metadata` object. -/
def frameworkMetadataValid (j : Json) : Bool :=
  j.isObj && optFieldIs j "platforms" (isArrOf platformInfoValid)
    && optFieldIs j "role" Json.isStr
    && reqFieldIs j "title" Json.isStr

/-- `FrameworkDataSchema` (passthrough: unknown fields are ignored by the
check and preserved in the value). -/
def frameworkDataValid (j : Json) : Bool :=
  j.isObj && optFieldIs j "abstract" (isArrOf abstractItemValid)
    && reqFieldIs j "metadata" frameworkMetadataValid
    && optFieldIs j "references" (isRecordOf referenceDataValid)
    && optFieldIs j "topicSections" (isArrOf topicSectionValid)

/-- `SymbolDataSchema`'s `metadata` object. -/
def symbolMetadataValid (j : Json) : Bool :=
  j.isObj && optFieldIs j "platforms" (isArrOf platformInfoValid)
    && optFieldIs j "symbolKind" Json.isStr
    && reqFieldIs j "title" Json.isStr
    && optFieldIs j "roleHeading" Json.isStr
    && optFieldIs j "fragments" (isArrOf fragmentValid)

/-- `SymbolDataSchema` (passthrough). -/
def symbolDataValid (j : Json) : Bool :=
  j.isObj && optFieldIs j "abstract" (isArrOf abstractItemValid)
    && reqFieldIs j "metadata" symbolMetadataValid
    && optFieldIs j "primaryContentSections" (isArrOf primaryContentSectionValid)
    && optFieldIs j "references" (isRecordOf referenceDataValid)
    && optFieldIs j "topicSections" (isArrOf topicSectionValid)

/-! ## Persistent file cache — `src/apple-client/cache/file-cache.ts` -/

/-- The observable content of one on-disk cache file at load time:
missing (`ENOENT`), unreadable for another reason (rethrown by the source),
unparseable JSON (`SyntaxError`), or well-formed JSON.  `JSON.stringify` of
a data value always produces well-formed JSON that parses back to the same
value, so a file written by `save*` is `wellFormed`. -/
inductive CacheFile where
  | absent
  | ioFailure
  | malformed
  | wellFormed (j : Json)

/-- A cache directory: file content keyed by file name. -/
def FileStore := String → CacheFile

/-- `sanitizeFrameworkName`: replace every character outside `[\w-]` with
an underscore. -/
def sanitizeFrameworkName (name : String) : String :=
  String.mk (name.data.map fun c =>
    if c.isAlphanum || c == '_' || c == '-' then c else '_')

/-- File name used for a framework's cache entry (`getCachePath`). -/
def frameworkCachePath (name : String) : String :=
  sanitizeFrameworkName name ++ ".json"

/-- `path.split('/')` as an accumulating splitter over characters. -/
def splitSlashAux : List Char → List Char → List (List Char)
  | [], cur => [cur.reverse]
  | c :: rest, cur =>
    if c == '/' then cur.reverse :: splitSlashAux rest []
    else splitSlashAux rest (c :: cur)

/-- `sanitizeSymbolPath`: readable truncated prefix from the last path
segment plus the first 16 hex characters of a content hash of the full
path.  The SHA-256 digest is abstracted as the function argument `hash`. -/
def sanitizeSymbolPath (hash : String → String) (path : String) : String :=
  let segments := ((splitSlashAux path.data []).filter (· ≠ [])).map String.mk
  let lastSegment := (segments.getLast?).getD "symbol"
  let pfx := String.mk ((lastSegment.data.map fun c =>
    if c.isAlphanum || c == '_' || c == '-' then c else '_').take 32)
  pfx ++ "_" ++ String.mk ((hash path).data.take 16)

/-- File name used for a symbol's cache entry. -/
def symbolCachePath (hash : String → String) (path : String) : String :=
  sanitizeSymbolPath hash path ++ ".json"

/-- `FileCache.loadFramework` on one file: `ENOENT` and `SyntaxError` are
caught and become a miss, schema-invalid parses become a miss, any other
read failure is rethrown. -/
def loadFrameworkFile : CacheFile → Except Unit (Option Json)
  | .absent => .ok none
  | .ioFailure => .error ()
  | .malformed => .ok none
  | .wellFormed j => if frameworkDataValid j then .ok (some j) else .ok none

/-- `FileCache.loadSymbol` on one file (same recovery policy, symbol
schema). -/
def loadSymbolFile : CacheFile → Except Unit (Option Json)
  | .absent => .ok none
  | .ioFailure => .error ()
  | .malformed => .ok none
  | .wellFormed j => if symbolDataValid j then .ok (some j) else .ok none

/-- `FileCache.loadFramework` against a cache directory. -/
def loadFramework (store : FileStore) (name : String) : Except Unit (Option Json) :=
  loadFrameworkFile (store (frameworkCachePath name))

/-- `FileCache.saveFramework`: write pretty-printed JSON of the data to the
framework's file. -/
def saveFramework (store : FileStore) (name : String) (data : Json) : FileStore :=
  fun k => if k = frameworkCachePath name then .wellFormed data else store k

/-- `FileCache.loadSymbol` against a cache directory. -/
def loadSymbol (hash : String → String) (store : FileStore) (path : String) :
    Except Unit (Option Json) :=
  loadSymbolFile (store (symbolCachePath hash path))

/-- `FileCache.saveSymbol`. -/
def saveSymbol (hash : String → String) (store : FileStore) (path : String)
    (data : Json) : FileStore :=
  fun k => if k = symbolCachePath hash path then .wellFormed data else store k

/-! ## Documentation client read-through paths — `src/apple-client.ts` -/

/-- `AppleDevDocsClient.getFramework`: persistent-cache hit short-circuits;
on a miss the transport result is fetched, then `saveFramework` is awaited
(unguarded) before the fetched data is returned.  The three collaborator
effects are abstracted as their outcomes for this one call. -/
def getFramework {ε : Type} (loadResult : Except ε (Option Json))
    (fetchResult : Except ε Json) (saveResult : Json → Except ε Unit) :
    Except ε Json := do
  let cached ← loadResult
  match cached with
  | some d => pure d
  | none => do
    let data ← fetchResult
    let _ ← saveResult data
    pure data

/-- Leading-slash strip in `AppleDevDocsClient.getSymbol`
(`path.startsWith('/') ? path.slice(1) : path`). -/
def cleanSymbolPathArg (path : String) : String :=
  if ['/'].isPrefixOf path.data then String.mk (path.data.drop 1) else path

/-- `AppleDevDocsClient.getSymbol`: strip a leading slash, then the same
load / fetch / unguarded-save sequence keyed by the cleaned path. -/
def getSymbol {ε : Type} (path : String)
    (loadResult : String → Except ε (Option Json))
    (fetchResult : String → Except ε Json)
    (saveResult : String → Json → Except ε Unit) : Except ε Json := do
  let cleanPath := cleanSymbolPathArg path
  let cached ← loadResult cleanPath
  match cached with
  | some d => pure d
  | none => do
    let data ← fetchResult cleanPath
    let _ ← saveResult cleanPath data
    pure data

/-! ## Local symbol index data model —
`src/server/services/local-symbol-index.ts` -/

/-- One `{text, type}` abstract item as consumed by `extractText`. -/
structure AbstractItem where
  text : String
  type : String
deriving DecidableEq, Repr

/-- `extractText` (`src/apple-client/formatters.ts`): concatenate the item
texts. -/
def extractText (abstract : List AbstractItem) : String :=
  String.join (abstract.map (·.text))

/-- Platform availability entry; only `name` is consumed by the indexer. -/
structure PlatformInfo where
  name : String
  introducedAt : Option String := none
deriving DecidableEq, Repr

/-- `ReferenceData` as consumed by `processReferences`. -/
structure ReferenceData where
  title : Option String := none
  kind : Option String := none
  url : Option String := none
  abstract : Option (List AbstractItem) := none
  platforms : Option (List PlatformInfo) := none
deriving DecidableEq, Repr

/-- The metadata fields the indexer reads from a validated symbol or
framework document (`url` and `symbolKind` are read through `in`-checks
because the schemas pass unknown fields through). -/
structure DocMetadata where
  title : String
  url : Option String := none
  symbolKind : Option String := none
  platforms : Option (List PlatformInfo) := none
deriving DecidableEq, Repr

/-- A validated cached document (`SymbolData | FrameworkData`) as consumed
by `processSymbolData`. -/
structure SymbolDoc where
  metadata : Option DocMetadata := none
  abstract : List AbstractItem := []
  references : Option (List (String × ReferenceData)) := none
deriving DecidableEq, Repr

/-- `LocalSymbolIndexEntry`. -/
structure LocalSymbolIndexEntry where
  id : String
  title : String
  path : String
  kind : String
  abstract : String
  platforms : List String
  tokens : List String
  filePath : String
deriving DecidableEq, Repr

/-- Index initialization states. -/
inductive IndexState where
  | uninitialized
  | building
  | ready
  | failed
deriving DecidableEq, Repr

/-- The `LocalSymbolIndex` object: its symbol `Map` (insertion-ordered
association list), state, and optional technology filter. -/
structure LocalSymbolIndex where
  symbols : List (String × LocalSymbolIndexEntry) := []
  state : IndexState := .uninitialized
  technologyIdentifier : Option String := none

/-- `processReferences`: one `Map.set` per reference whose `kind` is
`'symbol'` and whose title is truthy, skipping (when a technology filter is
set and the reference has a truthy URL) references whose lowercased URL
does not contain the lowercased filter. -/
def processReferences (technologyIdentifier : Option String)
    (references : Option (List (String × ReferenceData))) (filePath : String) :
    List (String × LocalSymbolIndexEntry) :=
  match references with
  | none => []
  | some refs =>
    refs.filterMap fun kv =>
      let refId := kv.1
      let ref := kv.2
      if ref.kind = some "symbol" ∧ strTruthy ref.title then
        if strTruthy technologyIdentifier ∧ strTruthy ref.url
            ∧ ¬(strContains (lowerStr (ref.url.getD ""))
                  (lowerStr (technologyIdentifier.getD "")) = true) then
          none
        else
          let title := ref.title.getD ""
          let refAbstract := extractText (ref.abstract.getD [])
          let refPlatforms :=
            ((ref.platforms.getD []).map (·.name)).filter (· ≠ "")
          let refTokens := createSearchTokens title refAbstract
            (strOr ref.url "") refPlatforms
          some (refId,
            { id := refId
              title := title
              path := strOr ref.url ""
              kind := ref.kind.getD ""
              abstract := refAbstract
              platforms := refPlatforms
              tokens := refTokens
              filePath := filePath })
      else none

/-- `processSymbolData`: extract the document-level entry (keyed and
identified by `path || title`), unless a technology filter is set, the path
is truthy and the lowercased path does not contain the lowercased filter
(in which case the whole document — references included — is skipped);
then process the nested references. -/
def processSymbolData (technologyIdentifier : Option String) (data : SymbolDoc)
    (filePath : String) : List (String × LocalSymbolIndexEntry) :=
  let title :=
    match data.metadata with
    | some m => if m.title = "" then "Unknown" else m.title
    | none => "Unknown"
  let path :=
    match data.metadata with
    | some m => m.url.getD ""
    | none => ""
  let kind :=
    match data.metadata with
    | some m => m.symbolKind.getD "framework"
    | none => "framework"
  let abstract := extractText data.abstract
  let platforms :=
    match data.metadata with
    | some m => ((m.platforms.getD []).map (·.name)).filter (· ≠ "")
    | none => []
  if strTruthy technologyIdentifier ∧ path ≠ ""
      ∧ ¬(strContains (lowerStr path)
            (lowerStr (technologyIdentifier.getD "")) = true) then
    []
  else
    let tokens := createSearchTokens title abstract path platforms
    (strOr2 path title,
      { id := strOr2 path title
        title := title
        path := path
        kind := kind
        abstract := abstract
        platforms := platforms
        tokens := tokens
        filePath := filePath })
    :: processReferences technologyIdentifier data.references filePath

/-! ## Wildcard pattern construction and matching — `LocalSymbolIndex.search` -/

/-- Fuel-bounded worker for `replaceAll`: every step consumes at least one
input character and one unit of fuel, so fuel equal to the input length
makes the zero-fuel arm unreachable. -/
def replaceAllGo (pat rep : List Char) : Nat → List Char → List Char
  | _, [] => []
  | 0, s => s
  | fuel + 1, c :: rest =>
    if pat ≠ [] ∧ pat.isPrefixOf (c :: rest) then
      rep ++ replaceAllGo pat rep fuel (rest.drop (pat.length - 1))
    else
      c :: replaceAllGo pat rep fuel rest

/-- `String.prototype.replaceAll` with a non-empty literal pattern:
left-to-right, non-overlapping. -/
def replaceAllL (pat rep s : List Char) : List Char :=
  replaceAllGo pat rep s.length s

/-- The NUL character used by the placeholder trick. -/
def nulChar : Char := Char.ofNat 0

/-- `'\u0000STAR\u0000'`. -/
def starPlaceholder : List Char := nulChar :: "STAR".data ++ [nulChar]

/-- `'\u0000QUESTION\u0000'`. -/
def questionPlaceholder : List Char := nulChar :: "QUESTION".data ++ [nulChar]

/-- The character class `[.+^${}[\]|()\\]` escaped by the wildcard
compiler (braces written via code points to keep them out of source
literals). -/
def regexSpecials : List Char :=
  ['.', '+', '^', '$', Char.ofNat 123, Char.ofNat 125, '[', ']', '|', '(', ')', '\\']

/-- `.replaceAll(/[.+^${}[\]|()\\]/g, '\\$&')`: prefix every special
character with a backslash. -/
def escapeRegexChars (s : List Char) : List Char :=
  (s.map fun c => if regexSpecials.contains c then ['\\', c] else [c]).flatten

/-- The anchored wildcard pattern built by `search` for a query containing
`*` or `?`: protect wildcards with placeholders, escape regex specials,
restore `*` as `.*` and `?` as `.`, lowercase.  The result is a linear
pattern of literal characters, backslash-escaped literals, `.` and `.*`. -/
def buildWildcardPattern (query : String) : List Char :=
  (replaceAllL questionPlaceholder ['.']
    (replaceAllL starPlaceholder ['.', '*']
      (escapeRegexChars
        (replaceAllL ['?'] questionPlaceholder
          (replaceAllL ['*'] starPlaceholder query.data))))).map Char.toLower

/-- Fuel-bounded worker for the pattern matcher: every recursive call
shrinks `pattern.length + input.length` by at least one, so fuel equal to
that sum plus one makes the zero-fuel arm unreachable. -/
def rxMatchGo : Nat → List Char → List Char → Bool
  | 0, _, _ => false
  | fuel + 1, p, s =>
    match p, s with
    | [], [] => true
    | [], _ :: _ => false
    | '\\' :: c :: ps, d :: s' => c == d && rxMatchGo fuel ps s'
    | '\\' :: _ :: _, [] => false
    | ['\\'], _ => false
    | '.' :: '*' :: ps, s =>
      rxMatchGo fuel ps s ||
        (match s with
         | _ :: s' => rxMatchGo fuel ('.' :: '*' :: ps) s'
         | [] => false)
    | '.' :: ps, _ :: s' => rxMatchGo fuel ps s'
    | '.' :: _, [] => false
    | c :: ps, d :: s' => c == d && rxMatchGo fuel ps s'
    | _ :: _, [] => false

/-- Anchored matcher for the pattern language produced by
`buildWildcardPattern` (the fragment of `RegExp` reachable there): `\c`
matches the literal `c`, `.*` matches any sequence, `.` matches any single
character, and every other pattern character matches itself.  The whole
string must be consumed (the source anchors with `^...$`). -/
def rxMatch (p s : List Char) : Bool :=
  rxMatchGo (p.length + s.length + 1) p s

/-- The per-entry wildcard test: the anchored regex against the lowercased
title, the lowercased path, or any token (tokens are tested as stored). -/
def wildcardEntryMatch (pat : List Char) (e : LocalSymbolIndexEntry) : Bool :=
  rxMatch pat (e.title.data.map Char.toLower)
  || rxMatch pat (e.path.data.map Char.toLower)
  || e.tokens.any fun token => rxMatch pat token.data

/-- Wildcard detection: the query contains `*` or `?`. -/
def hasWildcards (query : String) : Bool :=
  query.data.contains '*' || query.data.contains '?'

/-- The `try { new RegExp(...) } catch { undefined }` around pattern
construction.  On the pattern language produced by the escaping pipeline
compilation cannot fail, so the compiled pattern is always present; the
`none` case is the caught-failure fallback path. -/
def compileWildcard (query : String) : Option (List Char) :=
  some (buildWildcardPattern query)

/-- Literal fallback used when the wildcard regex is unavailable:
case-insensitive substring of title or path, flat score 50. -/
def literalFallbackMatch (query : String) (e : LocalSymbolIndexEntry) : Bool :=
  strContains (lowerStr e.title) (lowerStr query)
  || strContains (lowerStr e.path) (lowerStr query)

/-- The per-entry score accumulation of the non-wildcard branch: for each
query token add 50 on a case-insensitive title substring hit, 30 on exact
token-set membership, 10 on a case-insensitive abstract substring hit —
sequentially, never short-circuiting. -/
def scoreTokens (queryTokens : List String) (e : LocalSymbolIndexEntry) : Nat :=
  queryTokens.foldl
    (fun score queryToken =>
      let score :=
        if strContains (lowerStr e.title) (lowerStr queryToken) then score + 50
        else score
      let score := if e.tokens.contains queryToken then score + 30 else score
      if strContains (lowerStr e.abstract) (lowerStr queryToken) then score + 10
      else score)
    0

/-- The scoring loop of `search` over the symbol `Map`, parameterized by
the compiled wildcard regex (present, caught-failure `none`, or not built
because the query has no wildcards). -/
def searchScoredWith (wildcardRegex : Option (List Char))
    (symbols : List (String × LocalSymbolIndexEntry)) (query : String) :
    List (LocalSymbolIndexEntry × Nat) :=
  let queryTokens := tokenize query
  let hw := hasWildcards query
  symbols.filterMap fun kv =>
    let entry := kv.2
    let score : Nat :=
      if hw then
        match wildcardRegex with
        | some pat => if wildcardEntryMatch pat entry then 100 else 0
        | none => if literalFallbackMatch query entry then 50 else 0
      else scoreTokens queryTokens entry
    if score > 0 then some (entry, score) else none

/-- The scoring loop of `search` as executed: the regex is compiled once
per call, before the entry loop. -/
def searchScored (symbols : List (String × LocalSymbolIndexEntry))
    (query : String) : List (LocalSymbolIndexEntry × Nat) :=
  searchScoredWith
    (if hasWildcards query then compileWildcard query else none) symbols query

/-- Stable insertion for the sort below: a new element goes after every
already-placed element of greater or equal score. -/
def insertByScoreDesc (x : LocalSymbolIndexEntry × Nat) :
    List (LocalSymbolIndexEntry × Nat) → List (LocalSymbolIndexEntry × Nat)
  | [] => [x]
  | y :: ys => if y.2 < x.2 then x :: y :: ys else y :: insertByScoreDesc x ys

/-- `results.sort((a, b) => b.score - a.score)`: `Array.prototype.sort` is
stable, so the result is the descending-by-score stable reordering of the
input, modelled as left-to-right stable insertion. -/
def sortByScoreDesc (l : List (LocalSymbolIndexEntry × Nat)) :
    List (LocalSymbolIndexEntry × Nat) :=
  l.foldl (fun acc x => insertByScoreDesc x acc) []

/-- `LocalSymbolIndex.search`: score every entry, drop zero scores, sort
descending by score (stable), truncate to `maxResults`, return entries. -/
def LocalSymbolIndex.search (idx : LocalSymbolIndex) (query : String)
    (maxResults : Nat := 20) : List LocalSymbolIndexEntry :=
  ((sortByScoreDesc (searchScored idx.symbols query)).take maxResults).map
    (·.1)

/-! ## HTTP client retry/backoff — `src/apple-client/http-client.ts` -/

/-- A request failure as classified by `isRetryableError`: an axios error
carries an optional network error code and an optional response status;
anything else (including the client's own response-validation throws) is
not an axios error. -/
inductive ReqError where
  | axios (code : Option String) (status : Option Nat)
  | nonAxios
deriving DecidableEq, Repr

/-- `HttpClient.isRetryableError`: axios errors with code
`ECONNRESET`/`ETIMEDOUT`/`ECONNABORTED` or response status
429/500/502/503/504. -/
def isRetryableError : ReqError → Bool
  | .axios code status =>
    (match code with
     | some c => ["ECONNRESET", "ETIMEDOUT", "ECONNABORTED"].contains c
     | none => false)
    ||
    (match status with
     | some st => st == 503 || st == 429 || st == 500 || st == 502 || st == 504
     | none => false)
  | .nonAxios => false

/-- The wrapped failure thrown after the retry budget is spent
(`new Error('Failed to fetch documentation: ...', {cause: error})`). -/
inductive FetchFailure where
  | wrapped (cause : ReqError)
deriving DecidableEq, Repr

/-- Observable outcome of one `makeRequest` call: the result, how many
transport calls were made, and the backoff delays slept between them. -/
structure RequestTrace (T : Type) where
  result : Except FetchFailure T
  calls : Nat
  delays : List Nat
deriving Repr

/-- Default `config.http.maxRetryAttempts` (`src/config.ts`): 3 total
attempts. -/
def defaultMaxRetryAttempts : Nat := 3

/-- `HttpClient.makeRequest`: short-TTL cache check first (`cached` is this
call's cache-lookup outcome, unchanged across retries since the cache is
only written after a successful return); on a retryable error with attempts
remaining, sleep `baseRetryDelayMs * 2 ^ (attempt - 1)` and retry with
`attempt + 1`; otherwise wrap and rethrow the error as the cause. -/
def makeRequest {T : Type} (transport : Nat → Except ReqError T)
    (maxRetryAttempts baseRetryDelayMs : Nat) (cached : Option T)
    (attempt : Nat) : RequestTrace T :=
  match cached with
  | some v => { result := .ok v, calls := 0, delays := [] }
  | none =>
    match transport attempt with
    | .ok v => { result := .ok v, calls := 1, delays := [] }
    | .error e =>
      if h : isRetryableError e = true ∧ attempt < maxRetryAttempts then
        let delayMs := baseRetryDelayMs * 2 ^ (attempt - 1)
        let rest := makeRequest transport maxRetryAttempts baseRetryDelayMs
          none (attempt + 1)
        { result := rest.result
          calls := rest.calls + 1
          delays := delayMs :: rest.delays }
      else
        { result := .error (.wrapped e), calls := 1, delays := [] }
termination_by maxRetryAttempts - attempt
decreasing_by omega

/-! ## Server state — `src/server/state.ts` and the state sub-managers -/

/-- A technology as consumed by the state layer and the
`choose_technology` handler. -/
structure Technology where
  identifier : String
  title : String
  url : String := ""
  kind : String := ""
  role : String := ""
deriving DecidableEq, Repr

/-- `LastDiscovery` (`src/server/state/search-state.ts`). -/
structure LastDiscovery where
  query : Option String := none
  results : List Technology := []
deriving DecidableEq, Repr

/-- `FrameworkIndexEntry` as used by the framework index `Map` (shape per
`state.test.ts`). -/
structure FrameworkIndexEntry where
  id : String
  ref : ReferenceData
  tokens : List String
deriving DecidableEq, Repr

/-- The composed `ServerState`: the slices held by `TechnologyState`,
`FrameworkState` (active framework data, framework index, expanded
identifiers) and `SearchState` (last discovery, local symbol index). -/
structure ServerState where
  activeTechnology : Option Technology := none
  activeFrameworkData : Option Json := none
  frameworkIndex : Option (List (String × FrameworkIndexEntry)) := none
  expandedIdentifiers : List String := []
  lastDiscovery : Option LastDiscovery := none
  localSymbolIndex : Option LocalSymbolIndex := none

/-- Identifier of an optional technology (`technology?.identifier`). -/
def techIdOf (t : Option Technology) : Option String := t.map (·.identifier)

/-- Modelled from the spec: `FrameworkState.reset` — `framework-state.ts`
is not among the provided sources (only its importer `state.ts` and
`state.test.ts` are); per spec §4.6 and the tests, the reset clears the
active framework data, the framework index and the expanded-identifiers
set. -/
def resetFrameworkState (s : ServerState) : ServerState :=
  { s with activeFrameworkData := none, frameworkIndex := none,
           expandedIdentifiers := [] }

/-- `SearchState.resetForTechnologyChange`
(`src/server/state/search-state.ts`): clear the local symbol index, keep
`lastDiscovery`. -/
def resetSearchStateForTechnologyChange (s : ServerState) : ServerState :=
  { s with localSymbolIndex := none }

/-- `ServerState.resetForTechnologyChange`: reset the framework slice and
the technology-dependent search slice. -/
def ServerState.resetForTechnologyChange (s : ServerState) : ServerState :=
  resetSearchStateForTechnologyChange (resetFrameworkState s)

/-- `ServerState.setActiveTechnology`: record the previous identifier, set
the technology, and auto-reset the dependent state when the identifier
actually changed.  `TechnologyState.hasChanged` is modelled from the spec:
`technology-state.ts` is not among the provided sources; per spec §4.6 and
`state.test.ts` it compares the new active identifier with the previous
one. -/
def ServerState.setActiveTechnology (s : ServerState) (t : Option Technology) :
    ServerState :=
  let previousIdentifier := techIdOf s.activeTechnology
  let s' := { s with activeTechnology := t }
  if techIdOf s'.activeTechnology ≠ previousIdentifier then
    s'.resetForTechnologyChange
  else s'

/-- `ServerState.clearActiveFrameworkData` (delegating to the framework
slice). -/
def ServerState.clearActiveFrameworkData (s : ServerState) : ServerState :=
  { s with activeFrameworkData := none }

/-- `ensureFramework` in the `choose_technology` handler: only
`kind == 'symbol' && role == 'collection'` technologies pass; others raise
an invalid-request error. -/
def ensureFrameworkCheck (t : Technology) : Bool :=
  t.kind == "symbol" && t.role == "collection"

/-- The state mutation performed by the `choose_technology` handler once a
technology is resolved: guard with `ensureFramework`, then
`setActiveTechnology(chosen)` followed unconditionally by
`clearActiveFrameworkData()`. -/
def chooseTechnologySelect (s : ServerState) (chosen : Technology) :
    Except String ServerState :=
  if ensureFrameworkCheck chosen then
    .ok ((s.setActiveTechnology (some chosen)).clearActiveFrameworkData)
  else
    .error "not a framework collection"

/-! ## Spec-side characterizations -/

/-- The specification's description of non-wildcard scoring, written as a
sum over query tokens (title substring 50, exact token-set membership 30,
abstract substring 10), to be compared with the accumulating loop
`scoreTokens`. -/
def specTokenScore (queryTokens : List String) (e : LocalSymbolIndexEntry) : Nat :=
  (queryTokens.map fun qt =>
    (if strContains (lowerStr e.title) (lowerStr qt) then 50 else 0)
    + (if e.tokens.contains qt then 30 else 0)
    + (if strContains (lowerStr e.abstract) (lowerStr qt) then 10 else 0)).sum

/-- The identity invariant claimed for index entries: `id` is `path` when
non-empty, else `title`. -/
def entryIdInvariant (e : LocalSymbolIndexEntry) : Prop :=
  e.id = if e.path = "" then e.title else e.path

instance (e : LocalSymbolIndexEntry) : Decidable (entryIdInvariant e) := by
  unfold entryIdInvariant; infer_instance

/-! ## Concrete inputs used by examples, witnesses and counterexamples -/

/-- A `GridItem` entry as the index builds it. -/
def gridItemEntry : LocalSymbolIndexEntry :=
  { id := "/documentation/swiftui/griditem", title := "GridItem"
    path := "/documentation/swiftui/griditem", kind := "struct", abstract := ""
    platforms := []
    tokens := createSearchTokens "GridItem" "" "/documentation/swiftui/griditem" []
    filePath := "griditem.json" }

/-- A `Button` entry as the index builds it. -/
def buttonEntry : LocalSymbolIndexEntry :=
  { id := "/documentation/swiftui/button", title := "Button"
    path := "/documentation/swiftui/button", kind := "struct"
    abstract := "A control that initiates an action."
    platforms := []
    tokens := createSearchTokens "Button" "A control that initiates an action."
      "/documentation/swiftui/button" []
    filePath := "button.json" }

/-- A `View` entry as the index builds it. -/
def viewEntry : LocalSymbolIndexEntry :=
  { id := "/documentation/swiftui/view", title := "View"
    path := "/documentation/swiftui/view", kind := "protocol", abstract := ""
    platforms := []
    tokens := createSearchTokens "View" "" "/documentation/swiftui/view" []
    filePath := "view.json" }

/-- A ready index holding the three demo entries. -/
def wildcardIdx : LocalSymbolIndex :=
  { symbols := [(gridItemEntry.id, gridItemEntry), (buttonEntry.id, buttonEntry),
                (viewEntry.id, viewEntry)]
    state := .ready }

/-- A `NavigationView` entry for the ranking examples. -/
def navViewEntry : LocalSymbolIndexEntry :=
  { id := "/documentation/swiftui/navigationview", title := "NavigationView"
    path := "/documentation/swiftui/navigationview", kind := "struct"
    abstract := "A view for presenting a stack of views."
    platforms := []
    tokens := createSearchTokens "NavigationView"
      "A view for presenting a stack of views."
      "/documentation/swiftui/navigationview" []
    filePath := "navigationview.json" }

/-- A ready index holding the ranking demo entries. -/
def rankingIdx : LocalSymbolIndex :=
  { symbols := [(buttonEntry.id, buttonEntry), (navViewEntry.id, navViewEntry)]
    state := .ready }

/-- A cached SwiftUI document holding one symbol reference whose reference
key differs from its URL (the normal shape of Apple's reference tables). -/
def swiftuiDemoDoc : SymbolDoc :=
  { metadata := some { title := "SwiftUI", url := some "/documentation/swiftui" }
    abstract := []
    references := some
      [("doc://com.apple.documentation/documentation/swiftui/view",
        { title := some "View", kind := some "symbol"
          url := some "/documentation/swiftui/view" })] }

/-- A cached document without a `metadata.url` (articles and some cached
pages have none), titled like a UIKit symbol. -/
def noUrlDemoDoc : SymbolDoc :=
  { metadata := some { title := "UIButton", symbolKind := some "class" }
    abstract := []
    references := none }

/-- A default entry used to select list elements in closed statements. -/
def defaultEntry : LocalSymbolIndexEntry :=
  { id := "", title := "", path := "", kind := "", abstract := ""
    platforms := [], tokens := [], filePath := "" }

/-- The first pair produced by indexing `swiftuiDemoDoc` under the
`"swiftui"` technology filter. -/
def swiftuiDocHeadPair : String × LocalSymbolIndexEntry :=
  (processSymbolData (some "swiftui") swiftuiDemoDoc "swiftui.json").getD 0
    ("", defaultEntry)

/-- A framework technology (kind `symbol`, role `collection`). -/
def demoTechA : Technology :=
  { identifier := "doc://com.apple.documentation/documentation/swiftui"
    title := "SwiftUI", url := "/documentation/swiftui"
    kind := "symbol", role := "collection" }

/-- A second framework technology with a different identifier. -/
def demoTechB : Technology :=
  { identifier := "doc://com.apple.documentation/documentation/uikit"
    title := "UIKit", url := "/documentation/uikit"
    kind := "symbol", role := "collection" }

/-- A server state with every technology-dependent slice populated. -/
def demoState : ServerState :=
  { activeTechnology := some demoTechA
    activeFrameworkData := some (Json.obj [("metadata",
      Json.obj [("title", Json.str "SwiftUI")])])
    frameworkIndex := some [("doc://View",
      { id := "doc://View", ref := { title := some "View" }, tokens := ["view"] })]
    expandedIdentifiers := ["doc://View"]
    lastDiscovery := some { query := some "swift", results := [] }
    localSymbolIndex := some
      { symbols := [(viewEntry.id, viewEntry)]
        state := .ready
        technologyIdentifier := some "swiftui" } }

/-- A schema-valid framework payload. -/
def demoFrameworkJson : Json :=
  Json.obj
    [("metadata", Json.obj [("title", Json.str "SwiftUI"),
       ("extraField", Json.num 1)]),
     ("references", Json.obj [("doc://View", Json.obj
       [("title", Json.str "View"), ("url", Json.str "/documentation/swiftui/view"),
        ("kind", Json.str "symbol")])]),
     ("unknownTopLevel", Json.str "passthrough")]

/-- A schema-valid symbol payload. -/
def demoSymbolJson : Json :=
  Json.obj
    [("metadata", Json.obj [("title", Json.str "View"),
       ("symbolKind", Json.str "protocol")]),
     ("abstract", Json.arr [Json.obj [("text", Json.str "A view."),
       ("type", Json.str "text")]])]

/-- A cache directory with one missing file, one unparseable file, and
schema-invalid JSON everywhere else. -/
def corruptStore : FileStore := fun name =>
  if name = "absentfw.json" then .absent
  else if name = "badjson.json" then .malformed
  else .wellFormed (Json.obj [])

/-- A stand-in content hash for symbol cache file names. -/
def demoHash : String → String := fun _ => "0123456789abcdef"

/-! ## Theorems -/

/-- **C1.** `setActiveTechnology` with a different identifier clears the
active framework data, the framework index, the expanded-identifiers set
and the local symbol index; with the same identifier it leaves all four
unchanged. -/
theorem c1_setActiveTechnology_reset_or_preserve (s : ServerState)
    (t : Option Technology) :
    (techIdOf t ≠ techIdOf s.activeTechnology →
      ((s.setActiveTechnology t).activeFrameworkData = none ∧
       (s.setActiveTechnology t).frameworkIndex = none ∧
       (s.setActiveTechnology t).expandedIdentifiers = [] ∧
       (s.setActiveTechnology t).localSymbolIndex = none)) ∧
    (techIdOf t = techIdOf s.activeTechnology →
      ((s.setActiveTechnology t).activeFrameworkData = s.activeFrameworkData ∧
       (s.setActiveTechnology t).frameworkIndex = s.frameworkIndex ∧
       (s.setActiveTechnology t).expandedIdentifiers = s.expandedIdentifiers ∧
       (s.setActiveTechnology t).localSymbolIndex = s.localSymbolIndex)) := by
  constructor
  · intro hne
    simp [ServerState.setActiveTechnology, ServerState.resetForTechnologyChange,
      resetFrameworkState, resetSearchStateForTechnologyChange, hne]
  · intro heq
    simp [ServerState.setActiveTechnology, heq]

/-- Witness for C1 at a concrete populated state: selecting a different
technology clears the slices, re-selecting the same one preserves them. -/
theorem c1_setActiveTechnology_reset_or_preserve_witness :
    ((demoState.setActiveTechnology (some demoTechB)).activeFrameworkData = none ∧
     (demoState.setActiveTechnology (some demoTechB)).localSymbolIndex = none) ∧
    ((demoState.setActiveTechnology (some demoTechA)).activeFrameworkData =
       demoState.activeFrameworkData ∧
     (demoState.setActiveTechnology (some demoTechA)).localSymbolIndex =
       demoState.localSymbolIndex) := by
  have hB := (c1_setActiveTechnology_reset_or_preserve demoState (some demoTechB)).1
    (by decide)
  have hA := (c1_setActiveTechnology_reset_or_preserve demoState (some demoTechA)).2
    (by decide)
  exact ⟨⟨hB.1, hB.2.2.2⟩, ⟨hA.1, hA.2.2.2⟩⟩

/-- **C10.** The `choose_technology` handler clears the active framework
data unconditionally after setting the technology; when the chosen
technology has the currently active identifier, the framework index and
the local symbol index are left in place. -/
theorem c10_chooseTechnology_clears_framework_data (s : ServerState)
    (chosen : Technology) (s' : ServerState)
    (h : chooseTechnologySelect s chosen = Except.ok s') :
    s'.activeFrameworkData = none ∧
    (techIdOf (some chosen) = techIdOf s.activeTechnology →
      s'.frameworkIndex = s.frameworkIndex ∧
      s'.localSymbolIndex = s.localSymbolIndex) := by
  unfold chooseTechnologySelect at h
  split at h
  · cases h
    refine ⟨rfl, ?_⟩
    intro heq
    simp [ServerState.clearActiveFrameworkData, ServerState.setActiveTechnology,
      heq]
  · cases h

/-- Witness for C10: re-selecting the already-active technology still
yields an absent framework data while keeping index and local index. -/
theorem c10_chooseTechnology_clears_framework_data_witness :
    ∃ s', chooseTechnologySelect demoState demoTechA = Except.ok s' ∧
      s'.activeFrameworkData = none ∧
      s'.frameworkIndex = demoState.frameworkIndex ∧
      s'.localSymbolIndex = demoState.localSymbolIndex := by
  refine ⟨(demoState.setActiveTechnology (some demoTechA)).clearActiveFrameworkData,
    rfl, ?_⟩
  have h := c10_chooseTechnology_clears_framework_data demoState demoTechA
    ((demoState.setActiveTechnology (some demoTechA)).clearActiveFrameworkData)
    rfl
  exact ⟨h.1, (h.2 (by decide)).1, (h.2 (by decide)).2⟩

/-- **C7.** A missing, unparseable, or schema-invalid cache file is a
cache miss for both `loadFramework` and `loadSymbol` — the load returns
`none` and does not raise. -/
theorem c7_corrupt_cache_is_miss (store : FileStore) (hash : String → String)
    (name path : String) :
    (store (frameworkCachePath name) = .absent →
      loadFramework store name = .ok none) ∧
    (store (frameworkCachePath name) = .malformed →
      loadFramework store name = .ok none) ∧
    (∀ j, store (frameworkCachePath name) = .wellFormed j →
      frameworkDataValid j = false → loadFramework store name = .ok none) ∧
    (store (symbolCachePath hash path) = .absent →
      loadSymbol hash store path = .ok none) ∧
    (store (symbolCachePath hash path) = .malformed →
      loadSymbol hash store path = .ok none) ∧
    (∀ j, store (symbolCachePath hash path) = .wellFormed j →
      symbolDataValid j = false → loadSymbol hash store path = .ok none) := by
  refine ⟨fun hf => ?_, fun hf => ?_, fun j hf hv => ?_, fun hf => ?_,
    fun hf => ?_, fun j hf hv => ?_⟩ <;>
    simp [loadFramework, loadSymbol, loadFrameworkFile, loadSymbolFile, hf]
  · exact hv
  · exact hv

/-- Witness for C7 over a concrete corrupted cache directory. -/
theorem c7_corrupt_cache_is_miss_witness :
    loadFramework corruptStore "absentfw" = .ok none ∧
    loadFramework corruptStore "badjson" = .ok none ∧
    loadFramework corruptStore "invalid" = .ok none ∧
    loadSymbol demoHash corruptStore "documentation/swiftui/view" = .ok none := by
  refine ⟨?_, ?_, ?_, ?_⟩
  · exact (c7_corrupt_cache_is_miss corruptStore demoHash "absentfw" "p").1 rfl
  · exact (c7_corrupt_cache_is_miss corruptStore demoHash "badjson" "p").2.1 rfl
  · exact (c7_corrupt_cache_is_miss corruptStore demoHash "invalid" "p").2.2.1
      (Json.obj []) rfl rfl
  · exact (c7_corrupt_cache_is_miss corruptStore demoHash "n"
      "documentation/swiftui/view").2.2.2.2.2 (Json.obj []) rfl rfl

/-- **C9.** Save-then-load round-trips: a schema-valid framework or symbol
payload written by `save*` is returned unchanged by the matching `load*`
(passthrough keeps unknown fields). -/
theorem c9_cache_round_trip (store : FileStore) (hash : String → String)
    (name path : String) (d s : Json)
    (hd : frameworkDataValid d = true) (hs : symbolDataValid s = true) :
    loadFramework (saveFramework store name d) name = .ok (some d) ∧
    loadSymbol hash (saveSymbol hash store path s) path = .ok (some s) := by
  constructor
  · simp [loadFramework, saveFramework, loadFrameworkFile, hd]
  · simp [loadSymbol, saveSymbol, loadSymbolFile, hs]

/-- Witness for C9 on concrete payloads carrying unknown extra fields. -/
theorem c9_cache_round_trip_witness :
    loadFramework (saveFramework corruptStore "SwiftUI" demoFrameworkJson)
      "SwiftUI" = .ok (some demoFrameworkJson) ∧
    loadSymbol demoHash
      (saveSymbol demoHash corruptStore "documentation/swiftui/view"
        demoSymbolJson)
      "documentation/swiftui/view" = .ok (some demoSymbolJson) :=
  c9_cache_round_trip corruptStore demoHash "SwiftUI"
    "documentation/swiftui/view" demoFrameworkJson demoSymbolJson rfl rfl

/-- **C3** counterexample: on a cache miss, a failing persistent-store
write makes `getFramework` itself fail — the fetched value is not
returned, so the write is not best-effort. -/
theorem c3_counterexample :
    getFramework (ε := String) (Except.ok none) (Except.ok (Json.obj []))
      (fun _ => Except.error "save failed") = Except.error "save failed" ∧
    getFramework (ε := String) (Except.ok none) (Except.ok (Json.obj []))
      (fun _ => Except.error "save failed") ≠ Except.ok (Json.obj []) := by
  refine ⟨rfl, fun hcontra => ?_⟩
  have h1 : (Except.error "save failed" : Except String Json) =
      Except.ok (Json.obj []) := hcontra
  exact Except.noConfusion h1

/-- **C3 amended.** On a cache miss the fetched value is returned only if
the awaited save succeeds; a save failure propagates out of
`getFramework`/`getSymbol` as that failure. -/
theorem c3_save_failure_fails_get {ε : Type} (path : String) (d : Json)
    (saveFn : Json → Except ε Unit)
    (saveSymFn : String → Json → Except ε Unit) :
    (saveFn d = Except.ok () →
      getFramework (Except.ok none) (Except.ok d) saveFn = Except.ok d) ∧
    (∀ er, saveFn d = Except.error er →
      getFramework (Except.ok none) (Except.ok d) saveFn = Except.error er) ∧
    (saveSymFn (cleanSymbolPathArg path) d = Except.ok () →
      getSymbol path (fun _ => Except.ok none) (fun _ => Except.ok d)
        saveSymFn = Except.ok d) ∧
    (∀ er, saveSymFn (cleanSymbolPathArg path) d = Except.error er →
      getSymbol path (fun _ => Except.ok none) (fun _ => Except.ok d)
        saveSymFn = Except.error er) := by
  refine ⟨fun hsave => ?_, fun er hsave => ?_, fun hsave => ?_,
    fun er hsave => ?_⟩
  · show Except.bind (saveFn d) (fun _ => Except.ok d) = Except.ok d
    rw [hsave]
    rfl
  · show Except.bind (saveFn d) (fun _ => Except.ok d) = Except.error er
    rw [hsave]
    rfl
  · show Except.bind (saveSymFn (cleanSymbolPathArg path) d)
      (fun _ => Except.ok d) = Except.ok d
    rw [hsave]
    rfl
  · show Except.bind (saveSymFn (cleanSymbolPathArg path) d)
      (fun _ => Except.ok d) = Except.error er
    rw [hsave]
    rfl

/-- Witness for the amended C3 at concrete outcomes. -/
theorem c3_save_failure_fails_get_witness :
    getFramework (ε := String) (Except.ok none) (Except.ok demoFrameworkJson)
      (fun _ => Except.ok ()) = Except.ok demoFrameworkJson ∧
    getFramework (ε := String) (Except.ok none) (Except.ok demoFrameworkJson)
      (fun _ => Except.error "disk full") = Except.error "disk full" :=
  ⟨(c3_save_failure_fails_get "" demoFrameworkJson (fun _ => Except.ok ())
      (fun _ _ => Except.ok ())).1 rfl,
   (c3_save_failure_fails_get "" demoFrameworkJson
      (fun _ => Except.error "disk full") (fun _ _ => Except.ok ())).2.1
      "disk full" rfl⟩

/-- **C6.** Retry/backoff sequencing of `makeRequest`: a retryable failure
of attempt `n` with `n` below the attempt cap is followed by exactly one
delay of `baseDelay * 2 ^ (n - 1)` and one more attempt; a transport that
fails retryably twice and then succeeds yields 3 calls with delays
`[baseDelay, baseDelay * 2]` and the final result; exhausting all attempts
yields a wrapped failure carrying the original error as its cause. -/
theorem c6_retry_backoff_sequencing :
    (∀ (T : Type) (transport : Nat → Except ReqError T)
       (maxA baseD attempt : Nat) (e : ReqError),
       transport attempt = .error e → isRetryableError e = true →
       attempt < maxA →
       makeRequest transport maxA baseD none attempt =
         { result := (makeRequest transport maxA baseD none (attempt + 1)).result
           calls := (makeRequest transport maxA baseD none (attempt + 1)).calls + 1
           delays := baseD * 2 ^ (attempt - 1) ::
             (makeRequest transport maxA baseD none (attempt + 1)).delays }) ∧
    (∀ (T : Type) (v : T) (baseD : Nat) (e1 e2 : ReqError),
       isRetryableError e1 = true → isRetryableError e2 = true →
       makeRequest
         (fun n => if n = 1 then .error e1
                   else if n = 2 then .error e2 else .ok v)
         defaultMaxRetryAttempts baseD none 1 =
         { result := .ok v, calls := 3, delays := [baseD, baseD * 2] }) ∧
    (∀ (T : Type) (e : ReqError) (baseD : Nat), isRetryableError e = true →
       (makeRequest (T := T) (fun _ => .error e) defaultMaxRetryAttempts baseD
         none 1).result = .error (.wrapped e)) := by
  refine ⟨?_, ?_, ?_⟩
  · intro T transport maxA baseD attempt e htr hre hlt
    rw [makeRequest]
    simp [htr, hre, hlt]
  · intro T v baseD e1 e2 h1 h2
    rw [makeRequest, makeRequest, makeRequest]
    simp [defaultMaxRetryAttempts, h1, h2]
  · intro T e baseD h
    rw [makeRequest, makeRequest, makeRequest]
    simp [defaultMaxRetryAttempts, h]

/-- Witness for C6: `ECONNRESET` then HTTP 503 then success, with the
default attempt cap and a 500 ms base delay. -/
theorem c6_retry_backoff_sequencing_witness :
    makeRequest
      (fun n => if n = 1 then .error (ReqError.axios (some "ECONNRESET") none)
                else if n = 2 then .error (ReqError.axios none (some 503))
                else .ok 7)
      defaultMaxRetryAttempts 500 none 1 =
      { result := .ok 7, calls := 3, delays := [500, 1000] } := by
  have h := c6_retry_backoff_sequencing.2.1 Nat 7 500
    (ReqError.axios (some "ECONNRESET") none) (ReqError.axios none (some 503))
    (by decide) (by decide)
  simpa using h

/-- Truthiness of a present string is non-emptiness. -/
theorem strTruthy_some_iff (s : String) : strTruthy (some s) = true ↔ s ≠ "" := by
  simp [strTruthy]

/-- `x || ''` coincides with `getD ""`. -/
theorem strOr_empty_right (u : Option String) : strOr u "" = u.getD "" := by
  cases u with
  | none => rfl
  | some s => by_cases hs : s = "" <;> simp [strOr, hs]

/-- An option whose `getD ""` is non-empty is truthy. -/
theorem strTruthy_of_getD_ne (u : Option String) (h : u.getD "" ≠ "") :
    strTruthy u = true := by
  cases u with
  | none => exact absurd rfl h
  | some s => exact (strTruthy_some_iff s).mpr h

/-- Every pair produced by `processReferences` stores the reference key as
the entry's `id`. -/
theorem processReferences_id_eq_key (tech : Option String)
    (refs : Option (List (String × ReferenceData))) (fp : String) :
    ∀ p ∈ processReferences tech refs fp, p.2.id = p.1 := by
  intro p hp
  cases refs with
  | none => simp [processReferences] at hp
  | some l =>
    simp only [processReferences, List.mem_filterMap] at hp
    obtain ⟨a, _, hfa⟩ := hp
    by_cases hk : a.2.kind = some "symbol" ∧ strTruthy a.2.title = true
    · rw [if_pos hk] at hfa
      by_cases hf : strTruthy tech = true ∧ strTruthy a.2.url = true ∧
          ¬(strContains (lowerStr (a.2.url.getD ""))
              (lowerStr (tech.getD "")) = true)
      · rw [if_pos hf] at hfa
        cases hfa
      · rw [if_neg hf] at hfa
        cases hfa
        rfl
    · rw [if_neg hk] at hfa
      cases hfa

/-- Every reference entry surviving a non-empty technology filter with a
non-empty path has the filter as a substring of its lowercased path. -/
theorem processReferences_filter_helper (t : String)
    (refs : Option (List (String × ReferenceData))) (fp : String)
    (ht : t ≠ "") :
    ∀ p ∈ processReferences (some t) refs fp,
      p.2.path ≠ "" → strContains (lowerStr p.2.path) (lowerStr t) = true := by
  intro p hp hpath
  cases refs with
  | none => simp [processReferences] at hp
  | some l =>
    simp only [processReferences, List.mem_filterMap] at hp
    obtain ⟨a, _, hfa⟩ := hp
    by_cases hk : a.2.kind = some "symbol" ∧ strTruthy a.2.title = true
    · rw [if_pos hk] at hfa
      by_cases hf : strTruthy (some t) = true ∧ strTruthy a.2.url = true ∧
          ¬(strContains (lowerStr (a.2.url.getD ""))
              (lowerStr ((some t).getD "")) = true)
      · rw [if_pos hf] at hfa
        cases hfa
      · rw [if_neg hf] at hfa
        cases hfa
        push_neg at hf
        have hpath' : a.2.url.getD "" ≠ "" := by
          simpa [strOr_empty_right] using hpath
        have hurl : strTruthy a.2.url = true := strTruthy_of_getD_ne _ hpath'
        have hcontains := hf ((strTruthy_some_iff t).mpr ht) hurl
        simpa [strOr_empty_right] using hcontains
    · rw [if_neg hk] at hfa
      cases hfa

/-- **C2** counterexample: indexing a cached document whose reference key
differs from the reference URL yields a stored entry with a non-empty path
whose `id` is neither its path nor its title — the claimed identity
invariant fails for reference-derived entries. -/
theorem c2_entry_id_counterexample :
    ¬ (∀ p ∈ processSymbolData none swiftuiDemoDoc "swiftui.json",
        entryIdInvariant p.2) := by decide

/-- **C2 amended.** Every entry (document-level and reference-derived) is
stored under a key equal to its `id`; the document-level entry additionally
satisfies the claimed invariant (`id` is `path` when non-empty, else
`title`), while a reference-derived entry's `id` is the reference
dictionary key, which may differ from both. -/
theorem c2_entry_id_amended (tech : Option String) (data : SymbolDoc)
    (fp : String) :
    (∀ p ∈ processSymbolData tech data fp, p.2.id = p.1) ∧
    (∀ k e rest, processSymbolData tech data fp = (k, e) :: rest →
      entryIdInvariant e) := by
  constructor
  · intro p hp
    simp only [processSymbolData] at hp
    split at hp
    · simp at hp
    · rcases List.mem_cons.mp hp with hdoc | href
      · subst hdoc
        rfl
      · exact processReferences_id_eq_key tech data.references fp p href
  · intro k e rest h
    simp only [processSymbolData] at h
    split at h
    · cases h
    · injection h with h1 _
      cases h1
      rfl

/-- Witness for the amended C2: the concrete reference entry's `id` is its
storage key, and the concrete document entry satisfies the invariant. -/
theorem c2_entry_id_amended_witness :
    ((processSymbolData none swiftuiDemoDoc "swiftui.json").getD 1
      ("", defaultEntry)).2.id =
      ((processSymbolData none swiftuiDemoDoc "swiftui.json").getD 1
        ("", defaultEntry)).1 ∧
    entryIdInvariant
      ((processSymbolData none swiftuiDemoDoc "swiftui.json").getD 0
        ("", defaultEntry)).2 := by
  constructor
  · exact (c2_entry_id_amended none swiftuiDemoDoc "swiftui.json").1
      ((processSymbolData none swiftuiDemoDoc "swiftui.json").getD 1
        ("", defaultEntry)) (by decide)
  · exact (c2_entry_id_amended none swiftuiDemoDoc "swiftui.json").2
      ((processSymbolData none swiftuiDemoDoc "swiftui.json").getD 0
        ("", defaultEntry)).1
      ((processSymbolData none swiftuiDemoDoc "swiftui.json").getD 0
        ("", defaultEntry)).2
      ((processSymbolData none swiftuiDemoDoc "swiftui.json").drop 1)
      (by decide)

/-- **C8** counterexample: with technology filter `"swiftui"`, a cached
document without a `metadata.url` is still indexed (with an empty path),
so not every stored entry has a path containing the filter. -/
theorem c8_technology_filter_counterexample :
    ¬ (∀ p ∈ processSymbolData (some "swiftui") noUrlDemoDoc "uibutton.json",
        strContains (lowerStr p.2.path) (lowerStr "swiftui") = true) := by
  decide

/-- **C8 amended.** Under a non-empty technology filter, every stored
entry with a *non-empty* path — document-level or reference-derived — has
the lowercased filter as a substring of its lowercased path; entries whose
path is empty bypass the filter. -/
theorem c8_technology_filter_amended (t : String) (data : SymbolDoc)
    (fp : String) (ht : t ≠ "") :
    ∀ p ∈ processSymbolData (some t) data fp,
      p.2.path ≠ "" → strContains (lowerStr p.2.path) (lowerStr t) = true := by
  intro p hp hpath
  simp only [processSymbolData] at hp
  split at hp
  · simp at hp
  · next hguard =>
    rcases List.mem_cons.mp hp with hdoc | href
    · subst hdoc
      push_neg at hguard
      exact hguard ((strTruthy_some_iff t).mpr ht) hpath
    · exact processReferences_filter_helper t data.references fp ht p href hpath

/-- Witness for the amended C8: the SwiftUI document entry built under the
`"swiftui"` filter has the filter in its path. -/
theorem c8_technology_filter_amended_witness :
    strContains (lowerStr swiftuiDocHeadPair.2.path) (lowerStr "swiftui") =
      true :=
  c8_technology_filter_amended "swiftui" swiftuiDemoDoc "swiftui.json"
    (by decide) swiftuiDocHeadPair (by decide) (by decide)

/-- Membership in the scored-results list produced by a flat-score test:
exactly the indexed entries passing the test, at the flat score. -/
theorem mem_filterMap_flatScore (symbols : List (String × LocalSymbolIndexEntry))
    (test : LocalSymbolIndexEntry → Bool) (w : Nat) (hw0 : 0 < w)
    (e : LocalSymbolIndexEntry) (s : Nat) :
    ((e, s) ∈ symbols.filterMap fun kv =>
        if (if test kv.2 then w else 0) > 0 then
          some (kv.2, if test kv.2 then w else 0)
        else none) ↔
      ((∃ k, (k, e) ∈ symbols) ∧ test e = true ∧ s = w) := by
  simp only [List.mem_filterMap]
  constructor
  · rintro ⟨kv, hkv, hf⟩
    by_cases hm : test kv.2 = true
    · rw [if_pos hm, if_pos hw0] at hf
      injection hf with hpair
      injection hpair with he hs
      subst he
      subst hs
      exact ⟨⟨kv.1, hkv⟩, hm, rfl⟩
    · rw [if_neg hm] at hf
      simp at hf
  · rintro ⟨⟨k, hk⟩, hm, rfl⟩
    exact ⟨(k, e), hk, by rw [if_pos hm, if_pos hw0]⟩

/-- The accumulating score loop agrees with the spec's per-token sum. -/
theorem scoreTokens_eq_specTokenScore (queryTokens : List String)
    (e : LocalSymbolIndexEntry) :
    scoreTokens queryTokens e = specTokenScore queryTokens e := by
  have key : ∀ (l : List String) (acc : Nat),
      l.foldl (fun score qt =>
        let score :=
          if strContains (lowerStr e.title) (lowerStr qt) then score + 50
          else score
        let score := if e.tokens.contains qt then score + 30 else score
        if strContains (lowerStr e.abstract) (lowerStr qt) then score + 10
        else score) acc
      = acc + specTokenScore l e := by
    intro l
    induction l with
    | nil => intro acc; simp [specTokenScore]
    | cons qt rest ih =>
      intro acc
      rw [List.foldl_cons, ih]
      simp only [specTokenScore, List.map_cons, List.sum_cons]
      split_ifs <;> omega
  simpa [scoreTokens, specTokenScore] using key queryTokens 0

/-- Stable insertion adds exactly the new element. -/
theorem mem_insertByScoreDesc (x z : LocalSymbolIndexEntry × Nat)
    (l : List (LocalSymbolIndexEntry × Nat)) :
    z ∈ insertByScoreDesc x l ↔ z = x ∨ z ∈ l := by
  induction l with
  | nil => simp [insertByScoreDesc]
  | cons y ys ih =>
    by_cases hlt : y.2 < x.2
    · simp [insertByScoreDesc, hlt]
    · simp [insertByScoreDesc, hlt, ih]
      tauto

/-- Stable insertion preserves descending-by-score order. -/
theorem pairwise_insertByScoreDesc (x : LocalSymbolIndexEntry × Nat)
    (l : List (LocalSymbolIndexEntry × Nat))
    (h : l.Pairwise fun a b => b.2 ≤ a.2) :
    (insertByScoreDesc x l).Pairwise fun a b => b.2 ≤ a.2 := by
  induction l with
  | nil => simp [insertByScoreDesc]
  | cons y ys ih =>
    rcases List.pairwise_cons.mp h with ⟨hy, hys⟩
    by_cases hlt : y.2 < x.2
    · rw [insertByScoreDesc, if_pos hlt]
      refine List.pairwise_cons.mpr ⟨?_, h⟩
      intro z hz
      rcases List.mem_cons.mp hz with rfl | hz'
      · omega
      · have := hy z hz'
        omega
    · rw [insertByScoreDesc, if_neg hlt]
      refine List.pairwise_cons.mpr ⟨?_, ih hys⟩
      intro z hz
      rcases (mem_insertByScoreDesc x z ys).mp hz with rfl | hz'
      · omega
      · exact hy z hz'

/-- The modelled `sort((a, b) => b.score - a.score)` sorts descending by
score. -/
theorem pairwise_sortByScoreDesc (l : List (LocalSymbolIndexEntry × Nat)) :
    (sortByScoreDesc l).Pairwise fun a b => b.2 ≤ a.2 := by
  have key : ∀ (l acc : List (LocalSymbolIndexEntry × Nat)),
      (acc.Pairwise fun a b => b.2 ≤ a.2) →
      ((l.foldl (fun acc x => insertByScoreDesc x acc) acc).Pairwise
        fun a b => b.2 ≤ a.2) := by
    intro l
    induction l with
    | nil => intro acc hacc; simpa using hacc
    | cons x xs ih =>
      intro acc hacc
      exact ih _ (pairwise_insertByScoreDesc x acc hacc)
  exact key l [] (by simp)

/-- **C4.** Wildcard search: with the single compiled anchored pattern, an
entry is scored (flat 100) exactly when the pattern matches its lowercased
title, lowercased path, or one of its tokens; with compilation failed
(`none`), matching degrades to a literal case-insensitive substring test
(flat 50); `Grid*` returns the `GridItem` entry and not the `Button`
entry, and `Vie?` returns the `View` entry. -/
theorem c4_wildcard_search (idx : LocalSymbolIndex) (query : String)
    (hw : hasWildcards query = true) :
    (∀ e s, ((e, s) ∈ searchScored idx.symbols query ↔
      ((∃ k, (k, e) ∈ idx.symbols) ∧
       wildcardEntryMatch (buildWildcardPattern query) e = true ∧
       s = 100))) ∧
    (∀ e s, ((e, s) ∈ searchScoredWith none idx.symbols query ↔
      ((∃ k, (k, e) ∈ idx.symbols) ∧
       literalFallbackMatch query e = true ∧ s = 50))) ∧
    wildcardIdx.search "Grid*" 20 = [gridItemEntry] ∧
    wildcardIdx.search "Vie?" 20 = [viewEntry] := by
  refine ⟨?_, ?_, by decide, by decide⟩
  · intro e s
    have h := mem_filterMap_flatScore idx.symbols
      (wildcardEntryMatch (buildWildcardPattern query)) 100 (by omega) e s
    rw [← h]
    simp [searchScored, searchScoredWith, compileWildcard, hw]
  · intro e s
    have h := mem_filterMap_flatScore idx.symbols
      (literalFallbackMatch query) 50 (by omega) e s
    rw [← h]
    simp [searchScoredWith, hw]

/-- Witness for C4: the `GridItem` entry is scored 100 for `Grid*`. -/
theorem c4_wildcard_search_witness :
    (gridItemEntry, 100) ∈ searchScored wildcardIdx.symbols "Grid*" :=
  ((c4_wildcard_search wildcardIdx "Grid*" (by decide)).1 gridItemEntry
    100).mpr ⟨⟨gridItemEntry.id, by decide⟩, by decide, rfl⟩

/-- **C5.** Non-wildcard search: queries are tokenized with the shared
`tokenize` and every entry scored by the per-token sum (title 50, exact
token 30, abstract 10, accumulated over all query tokens); zero scores are
dropped, survivors stably sorted by descending score, truncation to
`maxResults`, entries returned. -/
theorem c5_nonwildcard_scoring (idx : LocalSymbolIndex) (query : String)
    (maxResults : Nat) (hw : hasWildcards query = false) :
    LocalSymbolIndex.search idx query maxResults =
      ((sortByScoreDesc (idx.symbols.filterMap fun kv =>
          if specTokenScore (tokenize query) kv.2 > 0 then
            some (kv.2, specTokenScore (tokenize query) kv.2)
          else none)).take maxResults).map (·.1) ∧
    (sortByScoreDesc (searchScored idx.symbols query)).Pairwise
      (fun a b => b.2 ≤ a.2) := by
  constructor
  · have hfun : (fun kv : String × LocalSymbolIndexEntry =>
        if scoreTokens (tokenize query) kv.2 > 0 then
          some (kv.2, scoreTokens (tokenize query) kv.2)
        else none) =
        (fun kv : String × LocalSymbolIndexEntry =>
        if specTokenScore (tokenize query) kv.2 > 0 then
          some (kv.2, specTokenScore (tokenize query) kv.2)
        else none) := by
      funext kv
      rw [scoreTokens_eq_specTokenScore]
    unfold LocalSymbolIndex.search
    simp only [searchScored, searchScoredWith, hw, Bool.false_eq_true,
      if_false, hfun]
  · exact pairwise_sortByScoreDesc _

/-- Witness for C5 on a concrete two-entry index and the query
`"nav view"`. -/
theorem c5_nonwildcard_scoring_witness :
    LocalSymbolIndex.search rankingIdx "nav view" 20 =
      ((sortByScoreDesc (rankingIdx.symbols.filterMap fun kv =>
          if specTokenScore (tokenize "nav view") kv.2 > 0 then
            some (kv.2, specTokenScore (tokenize "nav view") kv.2)
          else none)).take 20).map (·.1) :=
  (c5_nonwildcard_scoring rankingIdx "nav view" 20 (by decide)).1

end AppleDocMcp
